import Mathlib

/-!
Shallow embedding of the clicker-game economy server (`src/server.py`).

The Redis database is modelled as a `GameState` of association lists keyed by
strings, one field per family of Redis keys (`player:*`, `stock:*`,
`inventory:*`, `leaderboard:gold`, `leaderboard:clicks`, `clicks:*`,
`combo:*`, `rate:clicks:*`, `cooldown:*`, `auction:*`, `auctions:active`,
`config:*`).  Each HTTP handler becomes a pure function from a state and the
request inputs (plus the environment inputs the code draws: the current time,
the random critical draw, the freshly generated `unique_id`s) to a typed
result together with the successor state.  Redis key expiry (`psetex`,
`setex`) is modelled by storing the absolute expiry time and comparing it to
the current time at each read.
-/

/-- One entry of a player hash (`player:{id}`), fields as written by
`player_login`.  A hash created implicitly by `HINCRBY` on a missing key
gets defaults for every other field. -/
structure Player where
  username : String
  gold : Int
  level : Int
  exp : Int
  created_at : Int
  last_login : Int
deriving Repr, DecidableEq

/-- An item definition hash (`item:{id}`), seeded externally. -/
structure ItemDef where
  name : String
  price : Int
deriving Repr, DecidableEq

/-- One element of a player's inventory list (`inventory:{pid}`), as the
JSON blobs pushed by `shop_buy` and `auction_buy`.  The `unique_id` the code
draws from the clock and RNG is an environment input here. -/
structure InventoryItem where
  item_id : String
  name : String
  unique_id : Int
  acquired_at : Int
deriving Repr, DecidableEq

/-- An auction hash (`auction:{ms}`); `highest_bidder = ""` means no bid yet. -/
structure Auction where
  seller : String
  seller_name : String
  item_id : String
  item_name : String
  current_price : Int
  highest_bidder : String
  highest_bidder_name : String
deriving Repr, DecidableEq

/-- Lookup in an association list (first binding wins). -/
def getA {α : Type} : List (String × α) → String → Option α
  | [], _ => none
  | (k, v) :: rest, key => if k = key then some v else getA rest key

/-- Update-or-append in an association list (`HSET`/`ZADD`/`SET` semantics). -/
def setA {α : Type} : List (String × α) → String → α → List (String × α)
  | [], key, v => [(key, v)]
  | (k, w) :: rest, key, v =>
    if k = key then (key, v) :: rest else (k, w) :: setA rest key v

/-- Remove a binding (`DEL`/`ZREM` semantics). -/
def delA {α : Type} (l : List (String × α)) (key : String) : List (String × α) :=
  l.filter (fun kv => kv.1 != key)

/-- The whole Redis state touched by the handlers under verification. -/
structure GameState where
  players : List (String × Player)
  items : List (String × ItemDef)
  stocks : List (String × Int)
  inventories : List (String × List InventoryItem)
  lbGold : List (String × Int)
  lbClicks : List (String × Int)
  clickCounts : List (String × Int)
  combos : List (String × (Int × Int))
  rateWindows : List (String × List Int)
  cooldowns : List (String × Int)
  auctions : List (String × Auction)
  auctionsActive : List (String × Int)
  configCooldown : Option Int
  configWindow : Option Int
  configMaxHits : Option Int
deriving Repr, DecidableEq

/-- `HINCRBY player:{pid} gold delta`: returns the new value and the new
player table; a missing hash is created holding only the incremented field. -/
def hincrbyGold (ps : List (String × Player)) (pid : String) (delta : Int) :
    Int × List (String × Player) :=
  match getA ps pid with
  | some p => (p.gold + delta, setA ps pid { p with gold := p.gold + delta })
  | none =>
    (delta, setA ps pid
      { username := "", gold := delta, level := 0, exp := 0,
        created_at := 0, last_login := 0 })

/-- The combo value `click` reads: the stored counter while its 10-second
`SETEX` has not expired, `0` otherwise (also when the key was never set). -/
def comboVal (s : GameState) (pid : String) (now : Int) : Int :=
  match getA s.combos pid with
  | some ve => if now < ve.2 then ve.1 else 0
  | none => 0

/-- Outcome of `POST /api/click/<player_id>`. -/
inductive ClickResult where
  | playerNotFound
  | rateLimited (retry_after_ms : Int)
  | coolingDown (cooldown_ms : Int)
  | clicked (reward gold combo total_clicks : Int) (critical : Bool)
deriving Repr, DecidableEq

/-- Tail of the click handler after both gates admitted: set the cooldown
marker, compute the reward from the combo, run the Lua unit (gold `HINCRBY`,
clicks `INCR`, both `ZADD`s), and refresh the combo with a 10 s validity. -/
def clickReward (s1 : GameState) (pid : String) (now : Int) (crit : Bool)
    (cooldownMs : Int) : ClickResult × GameState :=
  let s2 := if 0 < cooldownMs then
      { s1 with cooldowns := setA s1.cooldowns pid (now + cooldownMs) }
    else s1
  let combo := comboVal s2 pid now
  let bonus := min (combo * 2) 50
  let reward := if crit then (10 + bonus) * 2 else 10 + bonus
  let g := hincrbyGold s2.players pid reward
  let newClicks := (getA s2.clickCounts pid).getD 0 + 1
  (.clicked reward g.1 (combo + 1) newClicks crit,
    { s2 with
      players := g.2,
      clickCounts := setA s2.clickCounts pid newClicks,
      lbGold := setA s2.lbGold pid g.1,
      lbClicks := setA s2.lbClicks pid newClicks,
      combos := setA s2.combos pid (combo + 1, now + 10000) })

/-- `POST /api/click/<player_id>`: sliding-window gate
(`ZREMRANGEBYSCORE 0 (now-window)` then count, recording `now` on
admission), then the cooldown gate, then the reward transaction.
`crit` is the 10 %-probability random draw. -/
def click (s : GameState) (pid : String) (now : Int) (crit : Bool) :
    ClickResult × GameState :=
  match getA s.players pid with
  | none => (.playerNotFound, s)
  | some _ =>
    let cooldownMs := s.configCooldown.getD 500
    let windowMs := s.configWindow.getD 1000
    let maxHits := s.configMaxHits.getD 3
    let w := (getA s.rateWindows pid).getD []
    let pruned := w.filter (fun t => !decide (0 ≤ t ∧ t ≤ now - windowMs))
    if maxHits ≤ (pruned.length : Int) then
      let retry : Int :=
        match pruned.min? with
        | some oldest => max 0 (oldest + windowMs - now)
        | none => 0
      (.rateLimited retry, { s with rateWindows := setA s.rateWindows pid pruned })
    else
      let w2 := if now ∈ pruned then pruned else pruned ++ [now]
      let s1 := { s with rateWindows := setA s.rateWindows pid w2 }
      match getA s.cooldowns pid with
      | some expiry =>
        if now < expiry then
          (.coolingDown (if 0 < expiry - now then expiry - now else cooldownMs), s1)
        else clickReward s1 pid now crit cooldownMs
      | none => clickReward s1 pid now crit cooldownMs

/-- Outcome of `POST /api/shop/buy`. -/
inductive BuyResult where
  | itemNotFound
  | outOfStock
  | insufficientFunds
  | storeError
  | purchased (cost newGold : Int)
deriving Repr, DecidableEq

/-- `RPUSH inventory:{pid}` of one serialized item (creates the list key). -/
def rpushInv (invs : List (String × List InventoryItem)) (pid : String)
    (it : InventoryItem) : List (String × List InventoryItem) :=
  setA invs pid (((getA invs pid).getD []) ++ [it])

/-- `POST /api/shop/buy`: item-existence check, then the Lua unit (stock
check, funds check, gold `HINCRBY`, stock `DECRBY`, leaderboard `ZADD`),
then one `RPUSH` per `range(quantity)` iteration.  `uidGen i` is the
`unique_id` drawn for the `i`-th pushed item. -/
def shop_buy (s : GameState) (pid item_id : String) (quantity : Int)
    (uidGen : Nat → Int) (now : Int) : BuyResult × GameState :=
  match getA s.items item_id with
  | none => (.itemNotFound, s)
  | some item =>
    match getA s.stocks item_id with
    | none => (.outOfStock, s)
    | some stock =>
      if stock < quantity then (.outOfStock, s)
      else
        match getA s.players pid with
        | none => (.storeError, s)
        | some p =>
          let totalCost := item.price * quantity
          if p.gold < totalCost then (.insufficientFunds, s)
          else
            let newGold := p.gold - totalCost
            let newItems := (List.range quantity.toNat).map (fun i =>
              ({ item_id := item_id, name := item.name, unique_id := uidGen i,
                 acquired_at := now } : InventoryItem))
            (.purchased totalCost newGold,
              { s with
                players := setA s.players pid { p with gold := newGold },
                stocks := setA s.stocks item_id (stock - quantity),
                lbGold := setA s.lbGold pid newGold,
                inventories :=
                  newItems.foldl (fun acc it => rpushInv acc pid it) s.inventories })

/-- Outcome of `POST /api/auction/bid`. -/
inductive BidResult where
  | auctionNotFound
  | bidTooLow
  | insufficientFunds
  | storeError
  | bidPlaced (newGold : Int)
deriving Repr, DecidableEq

/-- `POST /api/auction/bid`: reject on missing auction, `amount ≤
current_price`, or insufficient funds; otherwise refund the previous highest
bidder `current_price` (updating their leaderboard entry), debit the new
bidder `amount` (updating theirs), and rewrite the auction hash. -/
def auction_bid (s : GameState) (aid pid : String) (amount : Int) :
    BidResult × GameState :=
  match getA s.auctions aid with
  | none => (.auctionNotFound, s)
  | some a =>
    if amount ≤ a.current_price then (.bidTooLow, s)
    else
      match getA s.players pid with
      | none => (.storeError, s)
      | some p =>
        if p.gold < amount then (.insufficientFunds, s)
        else
          let refunded :=
            if a.highest_bidder ≠ "" then
              let g := hincrbyGold s.players a.highest_bidder a.current_price
              (g.2, setA s.lbGold a.highest_bidder g.1)
            else (s.players, s.lbGold)
          let g2 := hincrbyGold refunded.1 pid (-amount)
          let username := match getA g2.2 pid with
            | some q => q.username
            | none => ""
          (.bidPlaced g2.1,
            { s with
              players := g2.2,
              lbGold := setA refunded.2 pid g2.1,
              auctions := setA s.auctions aid
                { a with current_price := amount, highest_bidder := pid,
                         highest_bidder_name := username } })

/-- Outcome of `POST /api/auction/buy/<auction_id>`. -/
inductive BuyoutResult where
  | missingPlayerId
  | auctionNotFound
  | insufficientFunds
  | bought (buyerGold sellerGold : Int)
deriving Repr, DecidableEq

/-- The handler's key normalisation: prepend `auction:` unless present
(the prefix test is done on the character lists). -/
def normAuctionKey (aid : String) : String :=
  if "auction:".data.isPrefixOf aid.data then aid else "auction:" ++ aid

/-- `POST /api/auction/buy/<auction_id>`: on success debit the buyer and
credit the seller by `current_price`, `ZADD` both leaderboard entries (one
mapping, so a buyer who is also the seller yields a single entry), push the
escrowed item (fresh `unique_id` `uid`) to the buyer's inventory, and delete
the auction hash and its `auctions:active` entry.  The previous highest
bidder is never touched. -/
def auction_buy (s : GameState) (aid buyer : String) (uid now : Int) :
    BuyoutResult × GameState :=
  if buyer = "" then (.missingPlayerId, s)
  else
    let key := normAuctionKey aid
    match getA s.auctions key with
    | none => (.auctionNotFound, s)
    | some a =>
      let price := a.current_price
      let buyerGold := match getA s.players buyer with
        | some p => p.gold
        | none => 0
      if buyerGold < price then (.insufficientFunds, s)
      else
        let gb := hincrbyGold s.players buyer (-price)
        let gs := hincrbyGold gb.2 a.seller price
        let lb1 := if buyer = a.seller then setA s.lbGold a.seller gs.1
          else setA (setA s.lbGold buyer gb.1) a.seller gs.1
        (.bought gb.1 gs.1,
          { s with
            players := gs.2,
            lbGold := lb1,
            inventories := rpushInv s.inventories buyer
              { item_id := a.item_id, name := a.item_name,
                unique_id := uid, acquired_at := now },
            auctions := delA s.auctions key,
            auctionsActive := delA s.auctionsActive key })

/-- Outcome of `POST /api/player/login`. -/
inductive LoginResult where
  | badRequest
  | loggedIn (pid : String)
  | created (pid : String)
deriving Repr, DecidableEq

/-- `POST /api/player/login`: upsert by username.  A new player starts with
1000 gold and gets `leaderboard:gold = 1000` and `leaderboard:clicks = 0`;
an existing player only has `last_login` rewritten. -/
def player_login (s : GameState) (username : String) (nowMs : Int) :
    LoginResult × GameState :=
  if username = "" then (.badRequest, s)
  else
    match s.players.find? (fun kv => kv.2.username == username) with
    | some kv =>
      (.loggedIn kv.1,
        { s with players := setA s.players kv.1 { kv.2 with last_login := nowMs } })
    | none =>
      let pid := toString nowMs
      (.created pid,
        { s with
          players := setA s.players pid
            { username := username, gold := 1000, level := 1, exp := 0,
              created_at := nowMs, last_login := nowMs },
          lbGold := setA s.lbGold pid 1000,
          lbClicks := setA s.lbClicks pid 0 })

/-- `ZREVRANGE` ordering on `(member, score)` pairs: higher score first,
equal scores broken by reverse lexicographic member order (Redis sorted-set
semantics). -/
def ZLE (x y : String × Int) : Prop :=
  y.2 < x.2 ∨ (x.2 = y.2 ∧ ¬ x.1.data < y.1.data)

instance : DecidableRel ZLE := fun x y =>
  decidable_of_iff (y.2 < x.2 ∨ (x.2 = y.2 ∧ ¬ x.1.data < y.1.data)) Iff.rfl

/-- `ZREVRANGE key 0 (limit-1) WITHSCORES`: sort descending, then apply the
Redis stop-index convention (a negative stop counts from the end). -/
def zrevrangeLimit (l : List (String × Int)) (limit : Int) :
    List (String × Int) :=
  let srt := List.insertionSort ZLE l
  let e : Int := limit - 1
  let eff : Int := if 0 ≤ e then e else (srt.length : Int) + e
  srt.take (eff + 1).toNat

/-- One row of the leaderboard response. -/
structure LBEntry where
  rank : Nat
  player_id : String
  username : Option String
  score : Int
deriving Repr, DecidableEq

/-- The `enumerate(top, start=1)` loop building response rows. -/
def withRanks (f : String → Option String) :
    Nat → List (String × Int) → List LBEntry
  | _, [] => []
  | i, kv :: rest =>
    { rank := i, player_id := kv.1, username := f kv.1, score := kv.2 } ::
      withRanks f (i + 1) rest

/-- The sorted set behind `leaderboard:{board_type}` (empty for an unknown
board, matching a missing Redis key). -/
def boardOf (s : GameState) (board : String) : List (String × Int) :=
  if board = "gold" then s.lbGold
  else if board = "clicks" then s.lbClicks
  else []

/-- `GET /api/leaderboard/<board_type>?limit=N`. -/
def get_leaderboard (s : GameState) (board : String) (limit : Int) :
    List LBEntry :=
  withRanks (fun pid => (getA s.players pid).map Player.username) 1
    (zrevrangeLimit (boardOf s board) limit)

/-- `GET /api/auction/list`: members of `auctions:active` in ascending
score order, skipping ids whose hash no longer exists. -/
def auction_list (s : GameState) : List (String × Auction) :=
  (List.insertionSort (fun x y => ZLE y x) s.auctionsActive).filterMap
    (fun kv => (getA s.auctions kv.1).map (fun a => (kv.1, a)))

/-! ### Basic facts about the association-list store operations -/

theorem getA_setA_self {α : Type} (l : List (String × α)) (k : String) (v : α) :
    getA (setA l k v) k = some v := by
  induction l with
  | nil => simp [setA, getA]
  | cons kv rest ih =>
    obtain ⟨k0, w⟩ := kv
    by_cases h : k0 = k
    · simp [setA, h, getA]
    · simp [setA, h, getA, ih]

theorem getA_setA_ne {α : Type} (l : List (String × α)) (k k' : String) (v : α)
    (h : k ≠ k') : getA (setA l k v) k' = getA l k' := by
  induction l with
  | nil => simp [setA, getA, h]
  | cons kv rest ih =>
    obtain ⟨k0, w⟩ := kv
    by_cases h0 : k0 = k
    · subst h0; simp [setA, getA, h]
    · simp [setA, h0, getA, ih]

theorem getA_delA_self {α : Type} (l : List (String × α)) (k : String) :
    getA (delA l k) k = none := by
  induction l with
  | nil => simp [delA, getA]
  | cons kv rest ih =>
    obtain ⟨k0, w⟩ := kv
    by_cases h0 : k0 = k
    · simpa [delA, List.filter_cons, h0] using ih
    · simpa [delA, List.filter_cons, h0, getA] using ih

theorem getA_rpushFold (pid : String) (items : List InventoryItem) :
    ∀ invs : List (String × List InventoryItem),
      (getA (items.foldl (fun acc it => rpushInv acc pid it) invs) pid).getD [] =
        (getA invs pid).getD [] ++ items := by
  induction items with
  | nil => intro invs; simp
  | cons it rest ih =>
    intro invs
    have h1 : (getA (rpushInv invs pid it) pid).getD [] =
        (getA invs pid).getD [] ++ [it] := by
      simp [rpushInv, getA_setA_self]
    simp only [List.foldl_cons]
    rw [ih (rpushInv invs pid it), h1]
    simp

/-! ### Shop purchase: success, rejection, and the negative-quantity hole -/

/-- C4: a purchase by an existing player of an existing item with
`stock ≥ quantity` and `gold ≥ price*quantity` succeeds, decrements stock by
`quantity`, decrements gold by `price*quantity`, writes the new balance to
`leaderboard:gold`, and appends exactly `quantity` inventory items (with
pairwise-distinct `unique_id`s whenever the environment draws are distinct). -/
theorem shop_buy_success_effects (s : GameState) (pid iid : String) (q : Int)
    (uidGen : Nat → Int) (now : Int) (item : ItemDef) (stock : Int) (p : Player)
    (hItem : getA s.items iid = some item)
    (hStock : getA s.stocks iid = some stock)
    (hP : getA s.players pid = some p)
    (_hq : 0 ≤ q)
    (hs : q ≤ stock)
    (hg : item.price * q ≤ p.gold) :
    (shop_buy s pid iid q uidGen now).1 =
      .purchased (item.price * q) (p.gold - item.price * q) ∧
    getA (shop_buy s pid iid q uidGen now).2.players pid =
      some { p with gold := p.gold - item.price * q } ∧
    getA (shop_buy s pid iid q uidGen now).2.stocks iid = some (stock - q) ∧
    getA (shop_buy s pid iid q uidGen now).2.lbGold pid =
      some (p.gold - item.price * q) ∧
    (getA (shop_buy s pid iid q uidGen now).2.inventories pid).getD [] =
      (getA s.inventories pid).getD [] ++
        (List.range q.toNat).map (fun i =>
          ({ item_id := iid, name := item.name, unique_id := uidGen i,
             acquired_at := now } : InventoryItem)) ∧
    ((getA (shop_buy s pid iid q uidGen now).2.inventories pid).getD []).length =
      ((getA s.inventories pid).getD []).length + q.toNat ∧
    (Function.Injective uidGen →
      (((List.range q.toNat).map (fun i =>
          ({ item_id := iid, name := item.name, unique_id := uidGen i,
             acquired_at := now } : InventoryItem))).map
        (fun it => it.unique_id)).Nodup) := by
  have hns : ¬ stock < q := not_lt.mpr hs
  have hng : ¬ p.gold < item.price * q := not_lt.mpr hg
  simp only [shop_buy, hItem, hStock, hP, if_neg hns, if_neg hng]
  refine ⟨trivial, ?_, ?_, ?_, ?_, ?_, ?_⟩
  · simp [getA_setA_self]
  · simp [getA_setA_self]
  · simp [getA_setA_self]
  · simpa using getA_rpushFold pid _ s.inventories
  · rw [getA_rpushFold pid _ s.inventories]; simp
  · intro hinj
    simp only [List.map_map]
    exact (List.nodup_range _).map (fun a b hab => hinj hab)

/-- C10: the purchase endpoint accepts a negative `quantity`: both Lua guards
pass vacuously, the buyer is credited `price * (-q)`, the stock counter grows
by `-q`, the leaderboard is updated to the inflated balance, and the
`range(quantity)` loop pushes nothing. -/
theorem shop_buy_negative_quantity (s : GameState) (pid iid : String) (q : Int)
    (uidGen : Nat → Int) (now : Int) (item : ItemDef) (stock : Int) (p : Player)
    (hItem : getA s.items iid = some item)
    (hStock : getA s.stocks iid = some stock)
    (hP : getA s.players pid = some p)
    (hq : q < 0)
    (hstock : 0 ≤ stock)
    (hgold : 0 ≤ p.gold)
    (hprice : 0 < item.price) :
    (shop_buy s pid iid q uidGen now).1 =
      .purchased (item.price * q) (p.gold + item.price * (-q)) ∧
    getA (shop_buy s pid iid q uidGen now).2.players pid =
      some { p with gold := p.gold + item.price * (-q) } ∧
    p.gold < p.gold + item.price * (-q) ∧
    getA (shop_buy s pid iid q uidGen now).2.stocks iid = some (stock + (-q)) ∧
    stock < stock + (-q) ∧
    getA (shop_buy s pid iid q uidGen now).2.lbGold pid =
      some (p.gold + item.price * (-q)) ∧
    (shop_buy s pid iid q uidGen now).2.inventories = s.inventories := by
  have hns : ¬ stock < q := not_lt.mpr (le_trans hq.le hstock)
  have hcost : item.price * q < 0 := mul_neg_of_pos_of_neg hprice hq
  have hng : ¬ p.gold < item.price * q := not_lt.mpr (le_trans hcost.le hgold)
  have htn : q.toNat = 0 := Int.toNat_eq_zero.mpr hq.le
  have hsub : p.gold - item.price * q = p.gold + item.price * (-q) := by ring
  simp only [shop_buy, hItem, hStock, hP, if_neg hns, if_neg hng, htn]
  refine ⟨by rw [hsub], ?_, ?_, ?_, ?_, ?_, ?_⟩
  · rw [hsub] at *; simp [getA_setA_self]
  · have : 0 < item.price * (-q) := mul_pos hprice (by omega)
    omega
  · have : stock - q = stock + (-q) := by ring
    rw [this] at *; simp [getA_setA_self]
  · omega
  · rw [hsub] at *; simp [getA_setA_self]
  · simp

/-- C3: every business-rule rejection (`BidTooLow`, bid `InsufficientFunds`,
purchase `OutOfStock`, purchase `InsufficientFunds`) returns the state
completely unchanged: no gold, leaderboard, auction, stock, or inventory
mutation. -/
theorem rejection_no_mutation :
    (∀ (s : GameState) (aid pid : String) (amt : Int) (a : Auction),
      getA s.auctions aid = some a → amt ≤ a.current_price →
      auction_bid s aid pid amt = (.bidTooLow, s)) ∧
    (∀ (s : GameState) (aid pid : String) (amt : Int) (a : Auction) (p : Player),
      getA s.auctions aid = some a → a.current_price < amt →
      getA s.players pid = some p → p.gold < amt →
      auction_bid s aid pid amt = (.insufficientFunds, s)) ∧
    (∀ (s : GameState) (pid iid : String) (q : Int) (uidGen : Nat → Int)
      (now : Int) (item : ItemDef) (stock : Int),
      getA s.items iid = some item → getA s.stocks iid = some stock →
      stock < q →
      shop_buy s pid iid q uidGen now = (.outOfStock, s)) ∧
    (∀ (s : GameState) (pid iid : String) (q : Int) (uidGen : Nat → Int)
      (now : Int) (item : ItemDef) (stock : Int) (p : Player),
      getA s.items iid = some item → getA s.stocks iid = some stock →
      ¬ stock < q → getA s.players pid = some p → p.gold < item.price * q →
      shop_buy s pid iid q uidGen now = (.insufficientFunds, s)) := by
  refine ⟨?_, ?_, ?_, ?_⟩
  · intro s aid pid amt a hA hlow
    simp [auction_bid, hA, if_pos hlow]
  · intro s aid pid amt a p hA hlow hP hg
    simp [auction_bid, hA, if_neg (not_le.mpr hlow), hP, if_pos hg]
  · intro s pid iid q uidGen now item stock hItem hStock hlt
    simp [shop_buy, hItem, hStock, if_pos hlt]
  · intro s pid iid q uidGen now item stock p hItem hStock hns hP hg
    simp [shop_buy, hItem, hStock, if_neg hns, hP, if_pos hg]

/-! ### Auction bidding and buyout -/

theorem getA_hincrbyGold_ne (ps : List (String × Player)) (pid k : String)
    (d : Int) (h : pid ≠ k) :
    getA (hincrbyGold ps pid d).2 k = getA ps k := by
  unfold hincrbyGold
  cases hx : getA ps pid <;> simp [getA_setA_ne _ _ _ _ h]

theorem hincrbyGold_of_some (ps : List (String × Player)) (pid : String)
    (d : Int) (p : Player) (hp : getA ps pid = some p) :
    hincrbyGold ps pid d =
      (p.gold + d, setA ps pid { p with gold := p.gold + d }) := by
  simp [hincrbyGold, hp]

theorem mem_auction_list (s : GameState) (kv : String × Auction)
    (h : kv ∈ auction_list s) : getA s.auctions kv.1 = some kv.2 := by
  unfold auction_list at h
  rcases List.mem_filterMap.mp h with ⟨x, _, hmap⟩
  rcases Option.map_eq_some'.mp hmap with ⟨a, ha, heq⟩
  cases heq
  simpa using ha

/-- C2: an accepted bid (strictly above `current_price`, bidder able to pay)
refunds the previous highest bidder exactly `current_price` and updates their
`leaderboard:gold` entry, debits the new bidder the full `amount` and updates
their entry, rewrites the auction to the new price and bidder (with username
snapshot), and leaves the auction record in place. -/
theorem auction_bid_effects (s : GameState) (aid pid : String) (amt : Int)
    (a : Auction) (p : Player)
    (hA : getA s.auctions aid = some a)
    (hlow : a.current_price < amt)
    (hP : getA s.players pid = some p)
    (hg : amt ≤ p.gold)
    (hne : a.highest_bidder ≠ pid) :
    (auction_bid s aid pid amt).1 = .bidPlaced (p.gold - amt) ∧
    getA (auction_bid s aid pid amt).2.players pid =
      some { p with gold := p.gold - amt } ∧
    getA (auction_bid s aid pid amt).2.lbGold pid = some (p.gold - amt) ∧
    (∀ q : Player, a.highest_bidder ≠ "" →
      getA s.players a.highest_bidder = some q →
      getA (auction_bid s aid pid amt).2.players a.highest_bidder =
        some { q with gold := q.gold + a.current_price } ∧
      getA (auction_bid s aid pid amt).2.lbGold a.highest_bidder =
        some (q.gold + a.current_price)) ∧
    getA (auction_bid s aid pid amt).2.auctions aid =
      some { a with current_price := amt, highest_bidder := pid,
                    highest_bidder_name := p.username } := by
  by_cases hb : a.highest_bidder = ""
  · simp only [auction_bid, hA, if_neg (not_le.mpr hlow), hP,
      if_neg (not_lt.mpr hg), hb, ne_eq, not_true_eq_false, if_false,
      hincrbyGold_of_some s.players pid (-amt) p hP]
    refine ⟨by rw [sub_eq_add_neg], ?_, ?_, ?_, ?_⟩
    · simp [getA_setA_self, sub_eq_add_neg]
    · simp [getA_setA_self, sub_eq_add_neg]
    · intro q hq _
      exact hq.elim
    · simp [getA_setA_self, getA_setA_self]
  · have hpb : getA (hincrbyGold s.players a.highest_bidder a.current_price).2 pid
        = some p := by
      rw [getA_hincrbyGold_ne _ _ _ _ hne]; exact hP
    simp only [auction_bid, hA, if_neg (not_le.mpr hlow), hP,
      if_neg (not_lt.mpr hg), ne_eq, hb, not_false_eq_true, if_true,
      hincrbyGold_of_some _ pid (-amt) p hpb]
    refine ⟨by rw [sub_eq_add_neg], ?_, ?_, ?_, ?_⟩
    · simp [getA_setA_self, sub_eq_add_neg]
    · simp [getA_setA_self, sub_eq_add_neg]
    · intro q _ hq
      have hset := hincrbyGold_of_some s.players a.highest_bidder a.current_price q hq
      rw [hset]
      constructor
      · rw [getA_setA_ne _ _ _ _ (Ne.symm hne)]
        simp [getA_setA_self]
      · rw [getA_setA_ne _ _ _ _ (Ne.symm hne)]
        simp [getA_setA_self]
    · simp [getA_setA_self]

/-- C1: a buyout of an existing auction by a buyer (distinct from the seller)
with enough gold debits the buyer and credits the seller exactly
`current_price`, updates both `leaderboard:gold` entries, appends exactly one
inventory item carrying the escrowed `item_id`/`item_name` under the freshly
drawn `unique_id`, deletes the auction record (it no longer appears in the
listing), and never touches the previous highest bidder: their player hash
and leaderboard entry are left byte-identical — no refund. -/
theorem auction_buyout_effects (s : GameState) (aid buyer : String)
    (uid now : Int) (a : Auction) (pb ps : Player)
    (hbuyer : buyer ≠ "")
    (hA : getA s.auctions (normAuctionKey aid) = some a)
    (hB : getA s.players buyer = some pb)
    (hS : getA s.players a.seller = some ps)
    (hbs : buyer ≠ a.seller)
    (hg : a.current_price ≤ pb.gold) :
    (auction_buy s aid buyer uid now).1 =
      .bought (pb.gold - a.current_price) (ps.gold + a.current_price) ∧
    getA (auction_buy s aid buyer uid now).2.players buyer =
      some { pb with gold := pb.gold - a.current_price } ∧
    getA (auction_buy s aid buyer uid now).2.players a.seller =
      some { ps with gold := ps.gold + a.current_price } ∧
    getA (auction_buy s aid buyer uid now).2.lbGold buyer =
      some (pb.gold - a.current_price) ∧
    getA (auction_buy s aid buyer uid now).2.lbGold a.seller =
      some (ps.gold + a.current_price) ∧
    (getA (auction_buy s aid buyer uid now).2.inventories buyer).getD [] =
      (getA s.inventories buyer).getD [] ++
        [{ item_id := a.item_id, name := a.item_name, unique_id := uid,
           acquired_at := now }] ∧
    getA (auction_buy s aid buyer uid now).2.auctions (normAuctionKey aid) =
      none ∧
    (∀ a' : Auction, (normAuctionKey aid, a') ∉ auction_list (auction_buy s aid buyer uid now).2) ∧
    (a.highest_bidder ≠ "" → a.highest_bidder ≠ buyer →
      a.highest_bidder ≠ a.seller →
      getA (auction_buy s aid buyer uid now).2.players a.highest_bidder =
        getA s.players a.highest_bidder ∧
      getA (auction_buy s aid buyer uid now).2.lbGold a.highest_bidder =
        getA s.lbGold a.highest_bidder) := by
  have hng : ¬ pb.gold < a.current_price := not_lt.mpr hg
  have hSb : getA (setA s.players buyer
      { pb with gold := pb.gold + -a.current_price }) a.seller = some ps := by
    rw [getA_setA_ne _ _ _ _ hbs]; exact hS
  simp only [auction_buy, if_neg hbuyer, hA, hB, if_neg hng,
    hincrbyGold_of_some s.players buyer (-a.current_price) pb hB,
    if_neg hbs]
  simp only [hincrbyGold_of_some _ a.seller a.current_price ps hSb]
  refine ⟨by rw [sub_eq_add_neg], ?_, ?_, ?_, ?_, ?_, ?_, ?_, ?_⟩
  · rw [getA_setA_ne _ _ _ _ (Ne.symm hbs)]
    simp [getA_setA_self, sub_eq_add_neg]
  · simp [getA_setA_self]
  · rw [getA_setA_ne _ _ _ _ (Ne.symm hbs)]
    simp [getA_setA_self, sub_eq_add_neg]
  · simp [getA_setA_self]
  · simp [rpushInv, getA_setA_self]
  · exact getA_delA_self _ _
  · intro a' hmem
    have := mem_auction_list _ _ hmem
    rw [getA_delA_self] at this
    exact Option.noConfusion this
  · intro hb hbb hbsel
    constructor
    · rw [getA_setA_ne _ _ _ _ (Ne.symm hbsel), getA_setA_ne _ _ _ _ (Ne.symm hbb)]
    · rw [getA_setA_ne _ _ _ _ (Ne.symm hbsel), getA_setA_ne _ _ _ _ (Ne.symm hbb)]

/-! ### The click handler: inversion helpers -/

theorem comboVal_congr (s s' : GameState) (pid : String) (now : Int)
    (h : s.combos = s'.combos) : comboVal s pid now = comboVal s' pid now := by
  unfold comboVal; rw [h]

theorem clickReward_eq (s1 : GameState) (pid : String) (now : Int) (crit : Bool)
    (C : Int) (p : Player) (hp : getA s1.players pid = some p) :
    clickReward s1 pid now crit C =
      (.clicked (if crit then (10 + min (comboVal s1 pid now * 2) 50) * 2
                 else 10 + min (comboVal s1 pid now * 2) 50)
         (p.gold + (if crit then (10 + min (comboVal s1 pid now * 2) 50) * 2
                    else 10 + min (comboVal s1 pid now * 2) 50))
         (comboVal s1 pid now + 1)
         ((getA s1.clickCounts pid).getD 0 + 1) crit,
       { (if 0 < C then { s1 with cooldowns := setA s1.cooldowns pid (now + C) }
          else s1) with
         players := setA s1.players pid
           { p with gold := p.gold +
               (if crit then (10 + min (comboVal s1 pid now * 2) 50) * 2
                else 10 + min (comboVal s1 pid now * 2) 50) },
         clickCounts := setA s1.clickCounts pid ((getA s1.clickCounts pid).getD 0 + 1),
         lbGold := setA s1.lbGold pid
           (p.gold + (if crit then (10 + min (comboVal s1 pid now * 2) 50) * 2
                      else 10 + min (comboVal s1 pid now * 2) 50)),
         lbClicks := setA s1.lbClicks pid ((getA s1.clickCounts pid).getD 0 + 1),
         combos := setA s1.combos pid (comboVal s1 pid now + 1, now + 10000) }) := by
  unfold clickReward
  by_cases hC : 0 < C <;>
    simp [hC, hincrbyGold_of_some _ pid _ p hp, comboVal]

theorem click_of_clicked (s : GameState) (pid : String) (now : Int) (crit : Bool)
    (r g c n : Int) (b : Bool)
    (h : (click s pid now crit).1 = .clicked r g c n b) :
    ∃ s1 : GameState,
      click s pid now crit = clickReward s1 pid now crit (s.configCooldown.getD 500) ∧
      s1.players = s.players ∧ s1.combos = s.combos ∧
      s1.clickCounts = s.clickCounts ∧ s1.lbGold = s.lbGold ∧
      s1.lbClicks = s.lbClicks ∧ (getA s.players pid).isSome = true := by
  unfold click at h ⊢
  cases hp : getA s.players pid with
  | none =>
    rw [hp] at h
    simp at h
  | some p =>
    rw [hp] at h
    dsimp only at h ⊢
    by_cases hrl : s.configMaxHits.getD 3 ≤
        ((List.filter (fun t => !decide (0 ≤ t ∧ t ≤ now - s.configWindow.getD 1000))
          ((getA s.rateWindows pid).getD [])).length : Int)
    · rw [if_pos hrl] at h
      simp at h
    · rw [if_neg hrl] at h ⊢
      cases hcd : getA s.cooldowns pid with
      | none =>
        rw [hcd] at h
        dsimp only at h ⊢
        exact ⟨_, rfl, rfl, rfl, rfl, rfl, rfl, rfl⟩
      | some e =>
        rw [hcd] at h
        dsimp only at h ⊢
        by_cases hlt : now < e
        · rw [if_pos hlt] at h
          simp at h
        · rw [if_neg hlt] at h ⊢
          exact ⟨_, rfl, rfl, rfl, rfl, rfl, rfl, rfl⟩

/-- C7: for an accepted click with prior combo `comboVal s pid now` (0 when
absent or expired), the reward is `10 + min(combo*2, 50)`, doubled exactly
when the critical draw fires; it is strictly positive (the stored combo is
never negative in reachable states); and the response reports `combo + 1`. -/
theorem click_reward_formula (s : GameState) (pid : String) (now : Int)
    (crit : Bool) (r g c n : Int) (b : Bool)
    (h : (click s pid now crit).1 = .clicked r g c n b) :
    r = (if crit then (10 + min (comboVal s pid now * 2) 50) * 2
         else 10 + min (comboVal s pid now * 2) 50) ∧
    c = comboVal s pid now + 1 ∧
    (0 ≤ comboVal s pid now → 0 < r) := by
  obtain ⟨s1, heq, hpl, hcb, _, _, _, hsome⟩ :=
    click_of_clicked s pid now crit r g c n b h
  rw [Option.isSome_iff_exists] at hsome
  obtain ⟨p, hp⟩ := hsome
  have hp1 : getA s1.players pid = some p := by rw [hpl]; exact hp
  have hcv : comboVal s1 pid now = comboVal s pid now := comboVal_congr _ _ _ _ hcb
  rw [heq, clickReward_eq s1 pid now crit _ p hp1] at h
  simp only [hcv] at h
  rw [ClickResult.clicked.injEq] at h
  obtain ⟨hr, hg', hc, hn, hb⟩ := h
  refine ⟨hr.symm, hc.symm, ?_⟩
  intro hcv0
  have hm : (0 : Int) ≤ min (comboVal s pid now * 2) 50 :=
    le_min (by linarith) (by norm_num)
  rw [← hr]
  cases crit <;> simp <;> omega

/-- C6: a click that passes the sliding-window gate but is rejected by an
unexpired cooldown still has its timestamp recorded in the rate window (the
rejected click consumes a rate-limit slot), while the player hash, click
counter, combo, and both leaderboards are untouched. -/
theorem cooldown_reject_consumes_slot (s : GameState) (pid : String)
    (now : Int) (crit : Bool) (p : Player) (e : Int)
    (hP : getA s.players pid = some p)
    (hunder : ¬ s.configMaxHits.getD 3 ≤
      ((List.filter (fun t => !decide (0 ≤ t ∧ t ≤ now - s.configWindow.getD 1000))
        ((getA s.rateWindows pid).getD [])).length : Int))
    (hcd : getA s.cooldowns pid = some e)
    (hlt : now < e) :
    (∃ cd, (click s pid now crit).1 = .coolingDown cd) ∧
    (∃ w', getA (click s pid now crit).2.rateWindows pid = some w' ∧ now ∈ w') ∧
    (click s pid now crit).2.players = s.players ∧
    (click s pid now crit).2.clickCounts = s.clickCounts ∧
    (click s pid now crit).2.combos = s.combos ∧
    (click s pid now crit).2.lbGold = s.lbGold ∧
    (click s pid now crit).2.lbClicks = s.lbClicks := by
  unfold click
  simp only [hP]
  rw [if_neg hunder]
  simp only [hcd]
  rw [if_pos hlt]
  refine ⟨⟨_, rfl⟩, ⟨_, getA_setA_self _ _ _, ?_⟩, rfl, rfl, rfl, rfl, rfl⟩
  by_cases hm : now ∈ List.filter
      (fun t => !decide (0 ≤ t ∧ t ≤ now - s.configWindow.getD 1000))
      ((getA s.rateWindows pid).getD [])
  · rw [if_pos hm]; exact hm
  · rw [if_neg hm]
    exact List.mem_append_right _ (List.mem_singleton.mpr rfl)

/-! ### The rate limiter: trajectories of clicks -/

/-- Decision of a click attempt: `true` exactly on the reward path. -/
def ClickResult.isAdmitted : ClickResult → Bool
  | .clicked _ _ _ _ _ => true
  | _ => false

/-- Run a sequence of click requests by one player at the given times;
`crit t` is the critical draw of the attempt at time `t`. -/
def runClicks (pid : String) (crit : Int → Bool) :
    GameState → List Int → List ClickResult × GameState
  | s, [] => ([], s)
  | s, t :: ts =>
    let r := click s pid t (crit t)
    let rest := runClicks pid crit r.2 ts
    (r.1 :: rest.1, rest.2)

/-- Number of times in `L` falling in the trailing window `(t - W, t]`. -/
def countIn (W : Int) (L : List Int) (t : Int) : Nat :=
  (L.filter (fun u => decide (t - W < u ∧ u ≤ t))).length

theorem click_admit_step (s : GameState) (pid : String) (now : Int)
    (crit : Bool)
    (hsome : (getA s.players pid).isSome = true)
    (hunder : ¬ s.configMaxHits.getD 3 ≤
      ((List.filter (fun t => !decide (0 ≤ t ∧ t ≤ now - s.configWindow.getD 1000))
        ((getA s.rateWindows pid).getD [])).length : Int))
    (hcd : ∀ e, getA s.cooldowns pid = some e → e ≤ now)
    (hnm : now ∉ List.filter
      (fun t => !decide (0 ≤ t ∧ t ≤ now - s.configWindow.getD 1000))
      ((getA s.rateWindows pid).getD [])) :
    click s pid now crit = clickReward
      { s with rateWindows := (setA s.rateWindows pid
          ((List.filter (fun t => !decide (0 ≤ t ∧ t ≤ now - s.configWindow.getD 1000))
            ((getA s.rateWindows pid).getD [])) ++ [now])) }
      pid now crit (s.configCooldown.getD 500) := by
  unfold click
  obtain ⟨p, hp⟩ := Option.isSome_iff_exists.mp hsome
  simp only [hp]
  rw [if_neg hunder, if_neg hnm]
  cases hcdm : getA s.cooldowns pid with
  | none => rfl
  | some e =>
    dsimp only
    rw [if_neg (not_lt.mpr (hcd e hcdm))]

theorem clickReward_state_facts (s1 : GameState) (pid : String) (now : Int)
    (crit : Bool) (C : Int) (p : Player) (hp : getA s1.players pid = some p) :
    ((clickReward s1 pid now crit C).1.isAdmitted = true) ∧
    (clickReward s1 pid now crit C).2.rateWindows = s1.rateWindows ∧
    (clickReward s1 pid now crit C).2.configCooldown = s1.configCooldown ∧
    (clickReward s1 pid now crit C).2.configWindow = s1.configWindow ∧
    (clickReward s1 pid now crit C).2.configMaxHits = s1.configMaxHits ∧
    (getA (clickReward s1 pid now crit C).2.players pid).isSome = true ∧
    getA (clickReward s1 pid now crit C).2.cooldowns pid =
      (if 0 < C then some (now + C) else getA s1.cooldowns pid) := by
  rw [clickReward_eq s1 pid now crit C p hp]
  by_cases hC : 0 < C <;>
    simp [hC, ClickResult.isAdmitted, getA_setA_self]

theorem click_rate_limited (s : GameState) (pid : String) (now : Int)
    (crit : Bool) (p : Player)
    (hP : getA s.players pid = some p)
    (hnn : ∀ u ∈ (getA s.rateWindows pid).getD [], (0 : Int) ≤ u)
    (hM : 1 ≤ s.configMaxHits.getD 3)
    (hover : s.configMaxHits.getD 3 ≤
      ((List.filter (fun u => !decide (0 ≤ u ∧ u ≤ now - s.configWindow.getD 1000))
        ((getA s.rateWindows pid).getD [])).length : Int)) :
    ∃ oldest : Int,
      (List.filter (fun u => !decide (0 ≤ u ∧ u ≤ now - s.configWindow.getD 1000))
        ((getA s.rateWindows pid).getD [])).min? = some oldest ∧
      click s pid now crit =
        (.rateLimited (max 0 (oldest + s.configWindow.getD 1000 - now)),
         { s with rateWindows := (setA s.rateWindows pid
            (List.filter (fun u => !decide (0 ≤ u ∧ u ≤ now - s.configWindow.getD 1000))
              ((getA s.rateWindows pid).getD []))) }) ∧
      0 < max 0 (oldest + s.configWindow.getD 1000 - now) := by
  set pruned := List.filter
      (fun u => !decide (0 ≤ u ∧ u ≤ now - s.configWindow.getD 1000))
      ((getA s.rateWindows pid).getD []) with hpr
  have hne : pruned ≠ [] := by
    intro hnil
    rw [hnil] at hover
    simp at hover
    omega
  obtain ⟨oldest, hmin⟩ : ∃ o, pruned.min? = some o := by
    cases hc : pruned with
    | nil => exact absurd hc hne
    | cons x xs => exact ⟨_, List.min?_cons' ..⟩
  have hmem : oldest ∈ pruned := List.min?_mem min_choice hmin
  have hsurv : oldest < 0 ∨ now - s.configWindow.getD 1000 < oldest := by
    have := List.of_mem_filter hmem
    simpa using this
  have holdnn : (0 : Int) ≤ oldest := hnn oldest (List.mem_of_mem_filter hmem)
  have hpos : 0 < oldest + s.configWindow.getD 1000 - now := by
    rcases hsurv with h | h
    · omega
    · omega
  refine ⟨oldest, hmin, ?_, lt_max_iff.mpr (Or.inr hpos)⟩
  unfold click
  simp only [hP]
  rw [← hpr, if_pos hover, hmin]

theorem runClicks_all_admitted_aux (pid : String) (crit : Int → Bool)
    (W M C : Int) (hW : 0 < W) :
    ∀ (ts : List Int) (s : GameState) (w : List Int),
      s.configWindow.getD 1000 = W →
      s.configMaxHits.getD 3 = M →
      s.configCooldown.getD 500 = C →
      (getA s.players pid).isSome = true →
      (getA s.rateWindows pid).getD [] = w →
      (∀ u ∈ w, (0:Int) < u) →
      (∀ u ∈ w, ∀ t ∈ ts, u < t) →
      (∀ t ∈ ts, (0:Int) < t) →
      ts.Pairwise (· < ·) →
      ts.Pairwise (fun a b => a + C ≤ b) →
      (∀ e, getA s.cooldowns pid = some e → ∀ t ∈ ts, e ≤ t) →
      (∀ t ∈ ts, ((countIn W (w ++ ts) t : Int) ≤ M)) →
      ∀ r ∈ (runClicks pid crit s ts).1, r.isAdmitted = true := by
  intro ts
  induction ts with
  | nil =>
    intro s w _ _ _ _ _ _ _ _ _ _ _ _ r hr
    simp [runClicks] at hr
  | cons t rest ih =>
    intro s w hWs hMs hCs hsome hw hpos hsep hts hpw1 hpw2 hcd hcount
    have htpos : (0:Int) < t := hts t (List.mem_cons_self _ _)
    have hlt_t : ∀ u ∈ w, u < t := fun u hu => hsep u hu t (List.mem_cons_self _ _)
    have hfilter :
        List.filter (fun u => !decide (0 ≤ u ∧ u ≤ t - s.configWindow.getD 1000))
          ((getA s.rateWindows pid).getD []) =
        w.filter (fun u => decide (t - W < u)) := by
      rw [hw, hWs]
      apply List.filter_congr
      intro u hu
      have h0 : (0:Int) ≤ u := (hpos u hu).le
      by_cases hgt : t - W < u
      · rw [decide_eq_true hgt,
          decide_eq_false (fun hand => absurd hand.2 (by omega))]
        rfl
      · rw [decide_eq_false hgt, decide_eq_true (⟨h0, by omega⟩ : _ ∧ _)]
        rfl
    have hc := hcount t (List.mem_cons_self _ _)
    have hlen : (w.filter (fun u => decide (t - W < u))).length + 1 ≤
        countIn W (w ++ t :: rest) t := by
      unfold countIn
      rw [List.filter_append, List.length_append]
      have h1 : (w.filter (fun u => decide (t - W < u ∧ u ≤ t))).length =
          (w.filter (fun u => decide (t - W < u))).length := by
        congr 1
        apply List.filter_congr
        intro u hu
        have hut : u < t := hlt_t u hu
        by_cases hgt : t - W < u
        · rw [decide_eq_true (⟨hgt, hut.le⟩ : _ ∧ _), decide_eq_true hgt]
        · rw [decide_eq_false (fun hand => hgt hand.1), decide_eq_false hgt]
      rw [h1]
      have h2 : 1 ≤ ((t :: rest).filter (fun u => decide (t - W < u ∧ u ≤ t))).length := by
        rw [List.filter_cons, if_pos (decide_eq_true (⟨by omega, le_refl t⟩ : _ ∧ _))]
        simp
      omega
    have hunder : ¬ s.configMaxHits.getD 3 ≤
        ((List.filter (fun u => !decide (0 ≤ u ∧ u ≤ t - s.configWindow.getD 1000))
          ((getA s.rateWindows pid).getD [])).length : Int) := by
      rw [hfilter, hMs]
      have hcast : ((w.filter (fun u => decide (t - W < u))).length : Int) + 1 ≤ M := by
        calc ((w.filter (fun u => decide (t - W < u))).length : Int) + 1
            ≤ (countIn W (w ++ t :: rest) t : Int) := by exact_mod_cast hlen
          _ ≤ M := hc
      omega
    have hnm : t ∉ List.filter
        (fun u => !decide (0 ≤ u ∧ u ≤ t - s.configWindow.getD 1000))
        ((getA s.rateWindows pid).getD []) := by
      rw [hfilter]
      intro hmem
      exact absurd (hlt_t t (List.mem_of_mem_filter hmem)) (lt_irrefl t)
    have hcdt : ∀ e, getA s.cooldowns pid = some e → e ≤ t :=
      fun e he => hcd e he t (List.mem_cons_self _ _)
    have hstep := click_admit_step s pid t (crit t) hsome hunder hcdt hnm
    obtain ⟨p, hp⟩ := Option.isSome_iff_exists.mp hsome
    have hfacts := clickReward_state_facts
      { s with rateWindows := (setA s.rateWindows pid
          ((List.filter (fun u => !decide (0 ≤ u ∧ u ≤ t - s.configWindow.getD 1000))
            ((getA s.rateWindows pid).getD [])) ++ [t])) }
      pid t (crit t) (s.configCooldown.getD 500) p hp
    intro r hr
    simp only [runClicks] at hr
    rw [hstep] at hr
    rcases List.mem_cons.mp hr with hhead | htail
    · rw [hhead]
      exact hfacts.1
    · refine ih _ (w.filter (fun u => decide (t - W < u)) ++ [t])
        ?_ ?_ ?_ ?_ ?_ ?_ ?_ ?_ ?_ ?_ ?_ ?_ r htail
      · rw [hfacts.2.2.2.1]; exact hWs
      · rw [hfacts.2.2.2.2.1]; exact hMs
      · rw [hfacts.2.2.1]; exact hCs
      · exact hfacts.2.2.2.2.2.1
      · rw [hfacts.2.1]
        show (getA (setA s.rateWindows pid _) pid).getD [] = _
        rw [getA_setA_self]
        rw [Option.getD_some, hfilter]
      · intro u hu
        rcases List.mem_append.mp hu with h1 | h1
        · exact hpos u (List.mem_of_mem_filter h1)
        · rw [List.mem_singleton.mp h1]; exact htpos
      · intro u hu t' ht'
        rcases List.mem_append.mp hu with h1 | h1
        · exact hsep u (List.mem_of_mem_filter h1) t' (List.mem_cons_of_mem _ ht')
        · rw [List.mem_singleton.mp h1]
          exact (List.pairwise_cons.mp hpw1).1 t' ht'
      · exact fun t' ht' => hts t' (List.mem_cons_of_mem _ ht')
      · exact (List.pairwise_cons.mp hpw1).2
      · exact (List.pairwise_cons.mp hpw2).2
      · intro e' he' t' ht'
        rw [hfacts.2.2.2.2.2.2] at he'
        by_cases hC0 : 0 < s.configCooldown.getD 500
        · rw [if_pos hC0] at he'
          have he'' : t + s.configCooldown.getD 500 = e' := by
            injection he'
          have hsp := (List.pairwise_cons.mp hpw2).1 t' ht'
          omega
        · rw [if_neg hC0] at he'
          exact hcd e' he' t' (List.mem_cons_of_mem _ ht')
      · intro t' ht'
        have hc' := hcount t' (List.mem_cons_of_mem _ ht')
        have hmono : countIn W ((w.filter (fun u => decide (t - W < u)) ++ [t]) ++ rest) t' ≤
            countIn W (w ++ t :: rest) t' := by
          unfold countIn
          rw [List.append_assoc, List.singleton_append, List.filter_append,
            List.filter_append, List.length_append, List.length_append]
          have hm1 : ((w.filter (fun u => decide (t - W < u))).filter
              (fun u => decide (t' - W < u ∧ u ≤ t'))).length ≤
              (w.filter (fun u => decide (t' - W < u ∧ u ≤ t'))).length := by
            rw [List.filter_filter]
            rw [← List.countP_eq_length_filter, ← List.countP_eq_length_filter]
            apply List.countP_mono_left
            intro a _ hpa
            simp only [Bool.and_eq_true, decide_eq_true_eq] at hpa
            exact decide_eq_true hpa.1
          omega
        calc (countIn W ((w.filter (fun u => decide (t - W < u)) ++ [t]) ++ rest) t' : Int)
            ≤ (countIn W (w ++ t :: rest) t' : Int) := by exact_mod_cast hmono
          _ ≤ M := hc'

/-- C5: (a) every sequence of clicks by one existing player, with positive
strictly increasing times spaced at least `cooldown_ms` apart and at most
`max_hits` times inside any trailing `window_ms` interval, starting from an
empty rate window and an expired cooldown, is admitted in full; (b) a click
arriving when the pruned window already holds `max_hits` timestamps is
rejected (HTTP 429) with `retry_after_ms = max 0 (oldest + window_ms - now)`
computed from the oldest surviving timestamp after pruning, and this value is
strictly positive. -/
theorem rate_limiter_spec :
    (∀ (s : GameState) (pid : String) (crit : Int → Bool) (ts : List Int),
      (getA s.players pid).isSome = true →
      (getA s.rateWindows pid).getD [] = [] →
      (∀ e, getA s.cooldowns pid = some e → ∀ t ∈ ts, e ≤ t) →
      0 < s.configWindow.getD 1000 →
      ts.Pairwise (· < ·) →
      ts.Pairwise (fun a b => a + s.configCooldown.getD 500 ≤ b) →
      (∀ t ∈ ts, (0:Int) < t) →
      (∀ t ∈ ts, ((countIn (s.configWindow.getD 1000) ts t : Int) ≤
        s.configMaxHits.getD 3)) →
      ∀ r ∈ (runClicks pid crit s ts).1, r.isAdmitted = true) ∧
    (∀ (s : GameState) (pid : String) (now : Int) (crit : Bool) (p : Player),
      getA s.players pid = some p →
      (∀ u ∈ (getA s.rateWindows pid).getD [], (0:Int) ≤ u) →
      1 ≤ s.configMaxHits.getD 3 →
      s.configMaxHits.getD 3 ≤
        ((List.filter (fun u => !decide (0 ≤ u ∧ u ≤ now - s.configWindow.getD 1000))
          ((getA s.rateWindows pid).getD [])).length : Int) →
      ∃ oldest : Int,
        (List.filter (fun u => !decide (0 ≤ u ∧ u ≤ now - s.configWindow.getD 1000))
          ((getA s.rateWindows pid).getD [])).min? = some oldest ∧
        click s pid now crit =
          (.rateLimited (max 0 (oldest + s.configWindow.getD 1000 - now)),
           { s with rateWindows := (setA s.rateWindows pid
              (List.filter (fun u => !decide (0 ≤ u ∧ u ≤ now - s.configWindow.getD 1000))
                ((getA s.rateWindows pid).getD []))) }) ∧
        0 < max 0 (oldest + s.configWindow.getD 1000 - now)) := by
  constructor
  · intro s pid crit ts hsome hw hcd hWpos hpw1 hpw2 hts hcount
    refine runClicks_all_admitted_aux pid crit
      (s.configWindow.getD 1000) (s.configMaxHits.getD 3)
      (s.configCooldown.getD 500) hWpos ts s [] rfl rfl rfl hsome hw
      (by simp) (by simp) hts hpw1 hpw2 hcd ?_
    intro t ht
    have := hcount t ht
    simpa using this
  · intro s pid now crit p hP hnn hM hover
    exact click_rate_limited s pid now crit p hP hnn hM hover

/-! ### Leaderboard / balance consistency -/

/-- The RankIndex invariant: every player hash has a `leaderboard:gold` entry
equal to its `gold` field and a `leaderboard:clicks` entry equal to its
lifetime click counter (`0` when the counter key is absent). -/
def lbConsistent (s : GameState) : Prop :=
  (∀ k q, getA s.players k = some q → getA s.lbGold k = some q.gold) ∧
  (∀ k q, getA s.players k = some q →
    getA s.lbClicks k = some ((getA s.clickCounts k).getD 0))

theorem getA_of_mem_nodup {α : Type} (l : List (String × α)) (kv : String × α)
    (hnd : (l.map Prod.fst).Nodup) (hm : kv ∈ l) : getA l kv.1 = some kv.2 := by
  induction l with
  | nil => simp at hm
  | cons x rest ih =>
    rw [List.map_cons, List.nodup_cons] at hnd
    rcases List.mem_cons.mp hm with h | h
    · subst h; simp [getA]
    · have hne : x.1 ≠ kv.1 := by
        intro he
        exact hnd.1 (he ▸ List.mem_map_of_mem Prod.fst h)
      simp [getA, hne, ih hnd.2 h]

theorem consistent_gold_setA (ps : List (String × Player))
    (lb : List (String × Int))
    (h : ∀ k q, getA ps k = some q → getA lb k = some q.gold)
    (pid : String) (p : Player) :
    ∀ k q, getA (setA ps pid p) k = some q →
      getA (setA lb pid p.gold) k = some q.gold := by
  intro k q hk
  by_cases he : pid = k
  · subst he
    rw [getA_setA_self] at hk
    injection hk with h1
    subst h1
    rw [getA_setA_self]
  · rw [getA_setA_ne _ _ _ _ he] at hk
    rw [getA_setA_ne _ _ _ _ he]
    exact h k q hk

theorem consistent_clicks_setA_players (ps : List (String × Player))
    (cc lbc : List (String × Int))
    (h : ∀ k q, getA ps k = some q → getA lbc k = some ((getA cc k).getD 0))
    (pid : String) (p : Player) (hex : ∃ p0, getA ps pid = some p0) :
    ∀ k q, getA (setA ps pid p) k = some q →
      getA lbc k = some ((getA cc k).getD 0) := by
  intro k q hk
  by_cases he : pid = k
  · subst he
    obtain ⟨p0, hp0⟩ := hex
    exact h pid p0 hp0
  · rw [getA_setA_ne _ _ _ _ he] at hk
    exact h k q hk

theorem login_preserves_lb (s : GameState) (u : String) (now : Int)
    (h : lbConsistent s) (hnd : (s.players.map Prod.fst).Nodup)
    (hcc : (getA s.clickCounts (toString now)).getD 0 = 0) :
    lbConsistent (player_login s u now).2 := by
  unfold player_login
  by_cases hu : u = ""
  · rw [if_pos hu]; exact h
  · rw [if_neg hu]
    cases hf : s.players.find? (fun kv => kv.2.username == u) with
    | some kv =>
      dsimp only
      have hkv : getA s.players kv.1 = some kv.2 :=
        getA_of_mem_nodup _ _ hnd (List.mem_of_find?_eq_some hf)
      constructor
      · intro k q hk
        by_cases he : kv.1 = k
        · subst he
          rw [getA_setA_self] at hk
          injection hk with h1
          subst h1
          simpa using h.1 kv.1 kv.2 hkv
        · rw [getA_setA_ne _ _ _ _ he] at hk
          exact h.1 k q hk
      · intro k q hk
        by_cases he : kv.1 = k
        · subst he
          exact h.2 kv.1 kv.2 hkv
        · rw [getA_setA_ne _ _ _ _ he] at hk
          exact h.2 k q hk
    | none =>
      dsimp only
      constructor
      · intro k q hk
        by_cases he : toString now = k
        · subst he
          rw [getA_setA_self] at hk
          injection hk with h1
          subst h1
          rw [getA_setA_self]
        · rw [getA_setA_ne _ _ _ _ he] at hk
          rw [getA_setA_ne _ _ _ _ he]
          exact h.1 k q hk
      · intro k q hk
        by_cases he : toString now = k
        · subst he
          rw [getA_setA_self, hcc]
        · rw [getA_setA_ne _ _ _ _ he] at hk
          rw [getA_setA_ne _ _ _ _ he]
          exact h.2 k q hk

theorem clickReward_preserves_lb (s1 : GameState) (pid : String) (now : Int)
    (crit : Bool) (C : Int) (p : Player) (hp : getA s1.players pid = some p)
    (h1 : ∀ k q, getA s1.players k = some q → getA s1.lbGold k = some q.gold)
    (h2 : ∀ k q, getA s1.players k = some q →
      getA s1.lbClicks k = some ((getA s1.clickCounts k).getD 0)) :
    lbConsistent (clickReward s1 pid now crit C).2 := by
  rw [clickReward_eq s1 pid now crit C p hp]
  constructor
  · intro k q hk
    exact consistent_gold_setA s1.players s1.lbGold h1 pid _ k q hk
  · intro k q hk
    by_cases he : pid = k
    · subst he
      rw [getA_setA_self, getA_setA_self]
      simp
    · rw [getA_setA_ne _ _ _ _ he] at hk
      rw [getA_setA_ne _ _ _ _ he, getA_setA_ne _ _ _ _ he]
      exact h2 k q hk

theorem click_preserves_lb (s : GameState) (pid : String) (now : Int)
    (crit : Bool) (h : lbConsistent s) :
    lbConsistent (click s pid now crit).2 := by
  unfold click
  cases hp : getA s.players pid with
  | none => exact h
  | some p =>
    dsimp only
    by_cases hrl : s.configMaxHits.getD 3 ≤
        ((List.filter (fun t => !decide (0 ≤ t ∧ t ≤ now - s.configWindow.getD 1000))
          ((getA s.rateWindows pid).getD [])).length : Int)
    · rw [if_pos hrl]
      exact ⟨h.1, h.2⟩
    · rw [if_neg hrl]
      cases hcd : getA s.cooldowns pid with
      | none =>
        dsimp only
        exact clickReward_preserves_lb _ pid now crit _ p hp h.1 h.2
      | some e =>
        dsimp only
        by_cases hlt : now < e
        · rw [if_pos hlt]
          exact ⟨h.1, h.2⟩
        · rw [if_neg hlt]
          exact clickReward_preserves_lb _ pid now crit _ p hp h.1 h.2

theorem shop_preserves_lb (s : GameState) (pid iid : String) (q : Int)
    (uidGen : Nat → Int) (now : Int) (h : lbConsistent s) :
    lbConsistent (shop_buy s pid iid q uidGen now).2 := by
  unfold shop_buy
  cases hI : getA s.items iid with
  | none => exact h
  | some item =>
    dsimp only
    cases hS : getA s.stocks iid with
    | none => exact h
    | some stock =>
      dsimp only
      by_cases hq : stock < q
      · rw [if_pos hq]; exact h
      · rw [if_neg hq]
        cases hP : getA s.players pid with
        | none => exact h
        | some p =>
          dsimp only
          by_cases hg : p.gold < item.price * q
          · rw [if_pos hg]; exact h
          · rw [if_neg hg]
            constructor
            · intro k q' hk
              exact consistent_gold_setA s.players s.lbGold h.1 pid _ k q' hk
            · intro k q' hk
              exact consistent_clicks_setA_players s.players s.clickCounts
                s.lbClicks h.2 pid _ ⟨p, hP⟩ k q' hk

theorem bid_preserves_lb (s : GameState) (aid pid : String) (amt : Int)
    (h : lbConsistent s)
    (hprev : ∀ a, getA s.auctions aid = some a → a.highest_bidder ≠ "" →
      (getA s.players a.highest_bidder).isSome = true) :
    lbConsistent (auction_bid s aid pid amt).2 := by
  unfold auction_bid
  cases hA : getA s.auctions aid with
  | none => exact h
  | some a =>
    dsimp only
    by_cases h1 : amt ≤ a.current_price
    · rw [if_pos h1]; exact h
    · rw [if_neg h1]
      cases hP : getA s.players pid with
      | none => exact h
      | some p =>
        dsimp only
        by_cases h2 : p.gold < amt
        · rw [if_pos h2]; exact h
        · rw [if_neg h2]
          by_cases hb : a.highest_bidder ≠ ""
          · rw [if_pos hb]
            obtain ⟨q0, hq0⟩ := Option.isSome_iff_exists.mp (hprev a hA hb)
            rw [hincrbyGold_of_some s.players a.highest_bidder a.current_price q0 hq0]
            dsimp only
            have hex2 : ∃ p2, getA (setA s.players a.highest_bidder
                { q0 with gold := q0.gold + a.current_price }) pid = some p2 := by
              by_cases he : a.highest_bidder = pid
              · subst he; exact ⟨_, getA_setA_self _ _ _⟩
              · exact ⟨p, by rw [getA_setA_ne _ _ _ _ he]; exact hP⟩
            obtain ⟨p2, hp2⟩ := hex2
            rw [hincrbyGold_of_some _ pid (-amt) p2 hp2]
            dsimp only
            constructor
            · intro k q' hk
              exact consistent_gold_setA _ _
                (consistent_gold_setA s.players s.lbGold h.1 a.highest_bidder _)
                pid _ k q' hk
            · intro k q' hk
              exact consistent_clicks_setA_players _ s.clickCounts s.lbClicks
                (consistent_clicks_setA_players s.players s.clickCounts s.lbClicks
                  h.2 a.highest_bidder _ ⟨q0, hq0⟩) pid _ ⟨p2, hp2⟩ k q' hk
          · rw [if_neg hb]
            rw [hincrbyGold_of_some s.players pid (-amt) p hP]
            dsimp only
            constructor
            · intro k q' hk
              exact consistent_gold_setA s.players s.lbGold h.1 pid _ k q' hk
            · intro k q' hk
              exact consistent_clicks_setA_players s.players s.clickCounts
                s.lbClicks h.2 pid _ ⟨p, hP⟩ k q' hk

theorem buyout_preserves_lb (s : GameState) (aid buyer : String)
    (uid now : Int) (h : lbConsistent s)
    (hbuyer : buyer ≠ "" → (getA s.players buyer).isSome = true)
    (hseller : ∀ a, getA s.auctions (normAuctionKey aid) = some a →
      (getA s.players a.seller).isSome = true) :
    lbConsistent (auction_buy s aid buyer uid now).2 := by
  unfold auction_buy
  by_cases hbe : buyer = ""
  · rw [if_pos hbe]; exact h
  · rw [if_neg hbe]
    dsimp only
    cases hA : getA s.auctions (normAuctionKey aid) with
    | none => exact h
    | some a =>
      dsimp only
      obtain ⟨pb, hpb⟩ := Option.isSome_iff_exists.mp (hbuyer hbe)
      obtain ⟨psl, hpsl⟩ := Option.isSome_iff_exists.mp (hseller a hA)
      simp only [hpb]
      by_cases hg : pb.gold < a.current_price
      · rw [if_pos hg]; exact h
      · rw [if_neg hg]
        rw [hincrbyGold_of_some s.players buyer (-a.current_price) pb hpb]
        dsimp only
        by_cases hbs : buyer = a.seller
        · have hps2 : getA (setA s.players buyer
              { pb with gold := pb.gold + -a.current_price }) a.seller =
              some { pb with gold := pb.gold + -a.current_price } := by
            rw [← hbs]; exact getA_setA_self _ _ _
          rw [hincrbyGold_of_some _ a.seller a.current_price _ hps2]
          rw [if_pos hbs]
          dsimp only
          constructor
          · intro k q' hk
            by_cases he : a.seller = k
            · subst he
              rw [getA_setA_self] at hk
              injection hk with h1
              subst h1
              rw [getA_setA_self]
            · rw [getA_setA_ne _ _ _ _ he] at hk
              rw [getA_setA_ne _ _ _ _ (hbs ▸ he : buyer ≠ k)] at hk
              rw [getA_setA_ne _ _ _ _ he]
              exact h.1 k q' hk
          · intro k q' hk
            exact consistent_clicks_setA_players _ s.clickCounts s.lbClicks
              (consistent_clicks_setA_players s.players s.clickCounts s.lbClicks
                h.2 buyer _ ⟨pb, hpb⟩) a.seller _
              ⟨_, hps2⟩ k q' hk
        · have hps2 : getA (setA s.players buyer
              { pb with gold := pb.gold + -a.current_price }) a.seller =
              some psl := by
            rw [getA_setA_ne _ _ _ _ hbs]; exact hpsl
          rw [hincrbyGold_of_some _ a.seller a.current_price psl hps2]
          rw [if_neg hbs]
          dsimp only
          constructor
          · intro k q' hk
            exact consistent_gold_setA _ _
              (consistent_gold_setA s.players s.lbGold h.1 buyer _)
              a.seller _ k q' hk
          · intro k q' hk
            exact consistent_clicks_setA_players _ s.clickCounts s.lbClicks
              (consistent_clicks_setA_players s.players s.clickCounts s.lbClicks
                h.2 buyer _ ⟨pb, hpb⟩) a.seller _ ⟨psl, hps2⟩ k q' hk

theorem click_gold_strict_increase (s : GameState) (pid : String) (now : Int)
    (crit : Bool) (r g c n : Int) (b : Bool)
    (h : (click s pid now crit).1 = .clicked r g c n b)
    (hcv : 0 ≤ comboVal s pid now) :
    ∃ p, getA s.players pid = some p ∧ g = p.gold + r ∧ p.gold < g ∧
      getA (click s pid now crit).2.lbGold pid = some g := by
  obtain ⟨s1, heq, hpl, hcb, _, _, _, hsome⟩ :=
    click_of_clicked s pid now crit r g c n b h
  obtain ⟨p, hp⟩ := Option.isSome_iff_exists.mp hsome
  have hp1 : getA s1.players pid = some p := by rw [hpl]; exact hp
  have hcveq : comboVal s1 pid now = comboVal s pid now := comboVal_congr _ _ _ _ hcb
  have h' := h
  rw [heq, clickReward_eq s1 pid now crit _ p hp1] at h'
  dsimp only at h'
  rw [ClickResult.clicked.injEq] at h'
  obtain ⟨hr, hg', hc, hn, hb⟩ := h'
  have hm : (0:Int) ≤ min (comboVal s1 pid now * 2) 50 :=
    le_min (by rw [hcveq]; linarith) (by norm_num)
  have hRpos : 0 < r := by
    rw [← hr]
    cases crit <;> simp <;> omega
  have hgr : g = p.gold + r := by rw [← hg', hr]
  refine ⟨p, hp, hgr, by omega, ?_⟩
  rw [heq, clickReward_eq s1 pid now crit _ p hp1]
  dsimp only
  rw [getA_setA_self, hg']

/-- C8: the RankIndex invariant — `leaderboard:gold` equals the player's
`gold` and `leaderboard:clicks` equals the lifetime click counter — is
preserved by login (creation or revisit), click, purchase, bid, and buyout;
and on any accepted click the gold strictly increases by the computed reward
with the `leaderboard:gold` score equal to the new balance. -/
theorem leaderboard_consistency :
    (∀ (s : GameState) (u : String) (now : Int), lbConsistent s →
      (s.players.map Prod.fst).Nodup →
      (getA s.clickCounts (toString now)).getD 0 = 0 →
      lbConsistent (player_login s u now).2) ∧
    (∀ (s : GameState) (pid : String) (now : Int) (crit : Bool),
      lbConsistent s → lbConsistent (click s pid now crit).2) ∧
    (∀ (s : GameState) (pid iid : String) (q : Int) (uidGen : Nat → Int)
      (now : Int), lbConsistent s →
      lbConsistent (shop_buy s pid iid q uidGen now).2) ∧
    (∀ (s : GameState) (aid pid : String) (amt : Int), lbConsistent s →
      (∀ a, getA s.auctions aid = some a → a.highest_bidder ≠ "" →
        (getA s.players a.highest_bidder).isSome = true) →
      lbConsistent (auction_bid s aid pid amt).2) ∧
    (∀ (s : GameState) (aid buyer : String) (uid now : Int), lbConsistent s →
      (buyer ≠ "" → (getA s.players buyer).isSome = true) →
      (∀ a, getA s.auctions (normAuctionKey aid) = some a →
        (getA s.players a.seller).isSome = true) →
      lbConsistent (auction_buy s aid buyer uid now).2) ∧
    (∀ (s : GameState) (pid : String) (now : Int) (crit : Bool)
      (r g c n : Int) (b : Bool),
      (click s pid now crit).1 = .clicked r g c n b →
      0 ≤ comboVal s pid now →
      ∃ p, getA s.players pid = some p ∧ g = p.gold + r ∧ p.gold < g ∧
        getA (click s pid now crit).2.lbGold pid = some g) :=
  ⟨login_preserves_lb, click_preserves_lb, shop_preserves_lb,
   bid_preserves_lb, buyout_preserves_lb, click_gold_strict_increase⟩

/-! ### Leaderboard ordering -/

instance : IsTrans (String × Int) ZLE := by
  constructor
  intro x y z hxy hyz
  rcases hxy with h1 | ⟨he1, hm1⟩ <;> rcases hyz with h2 | ⟨he2, hm2⟩
  · exact Or.inl (h2.trans h1)
  · exact Or.inl (he2 ▸ h1)
  · exact Or.inl (he1 ▸ h2)
  · exact Or.inr ⟨he1.trans he2, not_lt.mpr (le_trans (not_lt.mp hm2) (not_lt.mp hm1))⟩

instance : IsTotal (String × Int) ZLE := by
  constructor
  intro x y
  rcases lt_trichotomy x.2 y.2 with h | h | h
  · exact Or.inr (Or.inl h)
  · by_cases hm : x.1.data < y.1.data
    · exact Or.inr (Or.inr ⟨h.symm, lt_asymm hm⟩)
    · exact Or.inl (Or.inr ⟨h, hm⟩)
  · exact Or.inl (Or.inl h)

theorem mem_withRanks (f : String → Option String) :
    ∀ (l : List (String × Int)) (i : Nat) (e : LBEntry),
      e ∈ withRanks f i l → (e.player_id, e.score) ∈ l := by
  intro l
  induction l with
  | nil => intro i e he; simp [withRanks] at he
  | cons kv rest ih =>
    intro i e he
    rw [withRanks] at he
    rcases List.mem_cons.mp he with h | h
    · simp [h]
    · exact List.mem_cons_of_mem _ (ih (i + 1) e h)

theorem withRanks_pairwise (R : (String × Int) → (String × Int) → Prop)
    (f : String → Option String) :
    ∀ (l : List (String × Int)) (i : Nat), l.Pairwise R →
      (withRanks f i l).Pairwise
        (fun e e' => R (e.player_id, e.score) (e'.player_id, e'.score)) := by
  intro l
  induction l with
  | nil => intro i _; simp [withRanks]
  | cons kv rest ih =>
    intro i hp
    rw [withRanks]
    refine List.Pairwise.cons ?_ (ih (i + 1) (List.pairwise_cons.mp hp).2)
    intro e' he'
    exact (List.pairwise_cons.mp hp).1 _ (mem_withRanks f rest (i + 1) e' he')

theorem withRanks_length (f : String → Option String) :
    ∀ (l : List (String × Int)) (i : Nat), (withRanks f i l).length = l.length := by
  intro l
  induction l with
  | nil => intro i; rfl
  | cons kv rest ih => intro i; rw [withRanks]; simp [ih]

theorem withRanks_map_rank (f : String → Option String) :
    ∀ (l : List (String × Int)) (i : Nat),
      (withRanks f i l).map LBEntry.rank = List.range' i l.length := by
  intro l
  induction l with
  | nil => intro i; rfl
  | cons kv rest ih =>
    intro i
    rw [withRanks, List.map_cons, ih (i + 1), List.length_cons, List.range'_succ]

/-- C9 (amended): the leaderboard query returns rows whose ranks are exactly
`1, 2, …` in order, sorted by score in non-increasing order, with equal
scores ordered by descending lexicographic `player_id` (Redis sorted-set
semantics) — not by insertion order. -/
theorem leaderboard_sorted_ranked (s : GameState) (b : String) (limit : Int) :
    (get_leaderboard s b limit).map LBEntry.rank =
      List.range' 1 (get_leaderboard s b limit).length ∧
    (get_leaderboard s b limit).Pairwise
      (fun x y => y.score < x.score ∨
        (x.score = y.score ∧ ¬ x.player_id.data < y.player_id.data)) := by
  have hsorted : (zrevrangeLimit (boardOf s b) limit).Pairwise ZLE := by
    unfold zrevrangeLimit
    exact List.Pairwise.sublist (List.take_sublist _ _)
      (List.sorted_insertionSort ZLE (boardOf s b))
  constructor
  · unfold get_leaderboard
    rw [withRanks_map_rank, withRanks_length]
  · unfold get_leaderboard
    exact withRanks_pairwise ZLE _ _ 1 hsorted

/-- The empty store: no keys of any kind, no configuration overrides. -/
def emptyState : GameState :=
  { players := [], items := [], stocks := [], inventories := [],
    lbGold := [], lbClicks := [], clickCounts := [], combos := [],
    rateWindows := [], cooldowns := [], auctions := [], auctionsActive := [],
    configCooldown := none, configWindow := none, configMaxHits := none }

/-- A leaderboard whose two members were inserted as "a" then "b" with the
same score 5. -/
def tieState : GameState := { emptyState with lbGold := [("a", 5), ("b", 5)] }

/-- C9 counterexample: with equal scores the query returns "b" before "a",
the reverse of insertion order, and the score column is not strictly
descending — refuting the claim as stated. -/
theorem leaderboard_tie_counterexample :
    (get_leaderboard tieState "gold" 10).map
      (fun e => (e.rank, e.player_id, e.score)) = [(1, "b", 5), (2, "a", 5)] ∧
    tieState.lbGold.map Prod.fst = ["a", "b"] ∧
    ¬ ((get_leaderboard tieState "gold" 10).map
        (fun e => e.score)).Pairwise (fun x y => y < x) := by
  decide

/-! ### Concrete witnesses -/

/-- Player fixtures for concrete runs. -/
def alice : Player := ⟨"alice", 1000, 1, 0, 0, 0⟩

def bob : Player := ⟨"bob", 500, 1, 0, 0, 0⟩

def carol : Player := ⟨"carol", 300, 1, 0, 0, 0⟩

/-- An active auction by bob on a Sword at price 60, carol highest bidder. -/
def swordA : Auction := ⟨"p2", "bob", "sword", "Sword", 60, "p3", "carol"⟩

/-- A small populated store: three players, one item, one auction. -/
def wstate : GameState :=
  { emptyState with
    players := [("p1", alice), ("p2", bob), ("p3", carol)],
    items := [("sword", ⟨"Sword", 100⟩)],
    stocks := [("sword", 5)],
    lbGold := [("p1", 1000), ("p2", 500), ("p3", 300)],
    lbClicks := [("p1", 0), ("p2", 0), ("p3", 0)],
    auctions := [("auction:1", swordA)],
    auctionsActive := [("auction:1", 7)] }

theorem auction_buyout_effects_witness :
    (("p1" : String) ≠ "" ∧
     getA wstate.auctions (normAuctionKey "auction:1") = some swordA ∧
     getA wstate.players "p1" = some alice ∧
     getA wstate.players swordA.seller = some bob ∧
     ("p1" : String) ≠ swordA.seller ∧
     swordA.current_price ≤ alice.gold) ∧
    ((auction_buy wstate "auction:1" "p1" 77 99).1 =
      .bought (alice.gold - swordA.current_price) (bob.gold + swordA.current_price) ∧
    getA (auction_buy wstate "auction:1" "p1" 77 99).2.players "p1" =
      some { alice with gold := alice.gold - swordA.current_price } ∧
    getA (auction_buy wstate "auction:1" "p1" 77 99).2.players swordA.seller =
      some { bob with gold := bob.gold + swordA.current_price } ∧
    getA (auction_buy wstate "auction:1" "p1" 77 99).2.lbGold "p1" =
      some (alice.gold - swordA.current_price) ∧
    getA (auction_buy wstate "auction:1" "p1" 77 99).2.lbGold swordA.seller =
      some (bob.gold + swordA.current_price) ∧
    (getA (auction_buy wstate "auction:1" "p1" 77 99).2.inventories "p1").getD [] =
      (getA wstate.inventories "p1").getD [] ++
        [{ item_id := swordA.item_id, name := swordA.item_name, unique_id := 77,
           acquired_at := 99 }] ∧
    getA (auction_buy wstate "auction:1" "p1" 77 99).2.auctions
      (normAuctionKey "auction:1") = none ∧
    (∀ a' : Auction, (normAuctionKey "auction:1", a') ∉
      auction_list (auction_buy wstate "auction:1" "p1" 77 99).2) ∧
    (swordA.highest_bidder ≠ "" → swordA.highest_bidder ≠ "p1" →
      swordA.highest_bidder ≠ swordA.seller →
      getA (auction_buy wstate "auction:1" "p1" 77 99).2.players swordA.highest_bidder =
        getA wstate.players swordA.highest_bidder ∧
      getA (auction_buy wstate "auction:1" "p1" 77 99).2.lbGold swordA.highest_bidder =
        getA wstate.lbGold swordA.highest_bidder)) :=
  ⟨⟨by decide, by decide, by decide, by decide, by decide, by decide⟩,
   auction_buyout_effects wstate "auction:1" "p1" 77 99 swordA alice bob
     (by decide) (by decide) (by decide) (by decide) (by decide) (by decide)⟩

theorem auction_bid_effects_witness :
    (getA wstate.auctions "auction:1" = some swordA ∧
     swordA.current_price < 80 ∧
     getA wstate.players "p1" = some alice ∧
     (80 : Int) ≤ alice.gold ∧
     swordA.highest_bidder ≠ "p1") ∧
    ((auction_bid wstate "auction:1" "p1" 80).1 = .bidPlaced (alice.gold - 80) ∧
    getA (auction_bid wstate "auction:1" "p1" 80).2.players "p1" =
      some { alice with gold := alice.gold - 80 } ∧
    getA (auction_bid wstate "auction:1" "p1" 80).2.lbGold "p1" =
      some (alice.gold - 80) ∧
    (∀ q : Player, swordA.highest_bidder ≠ "" →
      getA wstate.players swordA.highest_bidder = some q →
      getA (auction_bid wstate "auction:1" "p1" 80).2.players swordA.highest_bidder =
        some { q with gold := q.gold + swordA.current_price } ∧
      getA (auction_bid wstate "auction:1" "p1" 80).2.lbGold swordA.highest_bidder =
        some (q.gold + swordA.current_price)) ∧
    getA (auction_bid wstate "auction:1" "p1" 80).2.auctions "auction:1" =
      some { swordA with current_price := 80, highest_bidder := "p1",
                         highest_bidder_name := alice.username }) :=
  ⟨⟨by decide, by decide, by decide, by decide, by decide⟩,
   auction_bid_effects wstate "auction:1" "p1" 80 swordA alice
     (by decide) (by decide) (by decide) (by decide) (by decide)⟩

theorem rejection_no_mutation_witness :
    (getA wstate.auctions "auction:1" = some swordA ∧ (40 : Int) ≤ swordA.current_price ∧
      auction_bid wstate "auction:1" "p1" 40 = (.bidTooLow, wstate)) ∧
    (getA wstate.auctions "auction:1" = some swordA ∧ swordA.current_price < 5000 ∧
      getA wstate.players "p3" = some carol ∧ carol.gold < 5000 ∧
      auction_bid wstate "auction:1" "p3" 5000 = (.insufficientFunds, wstate)) ∧
    (getA wstate.items "sword" = some ⟨"Sword", 100⟩ ∧
      getA wstate.stocks "sword" = some 5 ∧ (5 : Int) < 9 ∧
      shop_buy wstate "p1" "sword" 9 (fun i => i) 99 = (.outOfStock, wstate)) ∧
    (getA wstate.items "sword" = some ⟨"Sword", 100⟩ ∧
      getA wstate.stocks "sword" = some 5 ∧ ¬ (5 : Int) < 4 ∧
      getA wstate.players "p3" = some carol ∧
      carol.gold < (⟨"Sword", 100⟩ : ItemDef).price * 4 ∧
      shop_buy wstate "p3" "sword" 4 (fun i => i) 99 = (.insufficientFunds, wstate)) :=
  ⟨⟨by decide, by decide,
    rejection_no_mutation.1 wstate "auction:1" "p1" 40 swordA (by decide) (by decide)⟩,
   ⟨by decide, by decide, by decide, by decide,
    rejection_no_mutation.2.1 wstate "auction:1" "p3" 5000 swordA carol
      (by decide) (by decide) (by decide) (by decide)⟩,
   ⟨by decide, by decide, by decide,
    rejection_no_mutation.2.2.1 wstate "p1" "sword" 9 (fun i => i) 99
      ⟨"Sword", 100⟩ 5 (by decide) (by decide) (by decide)⟩,
   ⟨by decide, by decide, by decide, by decide, by decide,
    rejection_no_mutation.2.2.2 wstate "p3" "sword" 4 (fun i => i) 99
      ⟨"Sword", 100⟩ 5 carol (by decide) (by decide) (by decide) (by decide)
      (by decide)⟩⟩

theorem shop_buy_success_effects_witness :
    (getA wstate.items "sword" = some ⟨"Sword", 100⟩ ∧
     getA wstate.stocks "sword" = some 5 ∧
     getA wstate.players "p1" = some alice ∧
     (0 : Int) ≤ 2 ∧ (2 : Int) ≤ 5 ∧
     (⟨"Sword", 100⟩ : ItemDef).price * 2 ≤ alice.gold) ∧
    ((shop_buy wstate "p1" "sword" 2 (fun i => i) 99).1 =
      .purchased ((⟨"Sword", 100⟩ : ItemDef).price * 2)
        (alice.gold - (⟨"Sword", 100⟩ : ItemDef).price * 2) ∧
    getA (shop_buy wstate "p1" "sword" 2 (fun i => i) 99).2.players "p1" =
      some { alice with gold := alice.gold - (⟨"Sword", 100⟩ : ItemDef).price * 2 } ∧
    getA (shop_buy wstate "p1" "sword" 2 (fun i => i) 99).2.stocks "sword" =
      some (5 - 2) ∧
    getA (shop_buy wstate "p1" "sword" 2 (fun i => i) 99).2.lbGold "p1" =
      some (alice.gold - (⟨"Sword", 100⟩ : ItemDef).price * 2) ∧
    (getA (shop_buy wstate "p1" "sword" 2 (fun i => i) 99).2.inventories "p1").getD [] =
      (getA wstate.inventories "p1").getD [] ++
        (List.range (2 : Int).toNat).map (fun i =>
          ({ item_id := "sword", name := (⟨"Sword", 100⟩ : ItemDef).name,
             unique_id := i, acquired_at := 99 } : InventoryItem)) ∧
    ((getA (shop_buy wstate "p1" "sword" 2 (fun i => i) 99).2.inventories "p1").getD []).length =
      ((getA wstate.inventories "p1").getD []).length + (2 : Int).toNat ∧
    (Function.Injective (fun i : Nat => (i : Int)) →
      (((List.range (2 : Int).toNat).map (fun i =>
          ({ item_id := "sword", name := (⟨"Sword", 100⟩ : ItemDef).name,
             unique_id := i, acquired_at := 99 } : InventoryItem))).map
        (fun it => it.unique_id)).Nodup)) :=
  ⟨⟨by decide, by decide, by decide, by decide, by decide, by decide⟩,
   shop_buy_success_effects wstate "p1" "sword" 2 (fun i => i) 99
     ⟨"Sword", 100⟩ 5 alice (by decide) (by decide) (by decide) (by decide)
     (by decide) (by decide)⟩

theorem shop_buy_negative_quantity_witness :
    (getA wstate.items "sword" = some ⟨"Sword", 100⟩ ∧
     getA wstate.stocks "sword" = some 5 ∧
     getA wstate.players "p1" = some alice ∧
     (-3 : Int) < 0 ∧ (0 : Int) ≤ 5 ∧ (0 : Int) ≤ alice.gold ∧
     (0 : Int) < (⟨"Sword", 100⟩ : ItemDef).price) ∧
    ((shop_buy wstate "p1" "sword" (-3) (fun i => i) 99).1 =
      .purchased ((⟨"Sword", 100⟩ : ItemDef).price * (-3))
        (alice.gold + (⟨"Sword", 100⟩ : ItemDef).price * (-(-3))) ∧
    getA (shop_buy wstate "p1" "sword" (-3) (fun i => i) 99).2.players "p1" =
      some { alice with gold := alice.gold + (⟨"Sword", 100⟩ : ItemDef).price * (-(-3)) } ∧
    alice.gold < alice.gold + (⟨"Sword", 100⟩ : ItemDef).price * (-(-3)) ∧
    getA (shop_buy wstate "p1" "sword" (-3) (fun i => i) 99).2.stocks "sword" =
      some (5 + (-(-3) : Int)) ∧
    (5 : Int) < 5 + (-(-3) : Int) ∧
    getA (shop_buy wstate "p1" "sword" (-3) (fun i => i) 99).2.lbGold "p1" =
      some (alice.gold + (⟨"Sword", 100⟩ : ItemDef).price * (-(-3))) ∧
    (shop_buy wstate "p1" "sword" (-3) (fun i => i) 99).2.inventories =
      wstate.inventories) :=
  ⟨⟨by decide, by decide, by decide, by decide, by decide, by decide, by decide⟩,
   shop_buy_negative_quantity wstate "p1" "sword" (-3) (fun i => i) 99
     ⟨"Sword", 100⟩ 5 alice (by decide) (by decide) (by decide) (by decide)
     (by decide) (by decide) (by decide)⟩

/-- A player mid-cooldown with one surviving window timestamp. -/
def cdState : GameState :=
  { wstate with rateWindows := [("p1", [900])], cooldowns := [("p1", 2000)] }

/-- A player whose rate window already holds three timestamps. -/
def rlState : GameState :=
  { wstate with rateWindows := [("p1", [1000, 1200, 1400])] }

theorem cooldown_reject_consumes_slot_witness :
    (getA cdState.players "p1" = some alice ∧
     ¬ cdState.configMaxHits.getD 3 ≤
       ((List.filter (fun t => !decide (0 ≤ t ∧ t ≤ 1500 - cdState.configWindow.getD 1000))
         ((getA cdState.rateWindows "p1").getD [])).length : Int) ∧
     getA cdState.cooldowns "p1" = some 2000 ∧ (1500 : Int) < 2000) ∧
    ((∃ cd, (click cdState "p1" 1500 false).1 = .coolingDown cd) ∧
     (∃ w', getA (click cdState "p1" 1500 false).2.rateWindows "p1" = some w' ∧
       (1500 : Int) ∈ w') ∧
     (click cdState "p1" 1500 false).2.players = cdState.players ∧
     (click cdState "p1" 1500 false).2.clickCounts = cdState.clickCounts ∧
     (click cdState "p1" 1500 false).2.combos = cdState.combos ∧
     (click cdState "p1" 1500 false).2.lbGold = cdState.lbGold ∧
     (click cdState "p1" 1500 false).2.lbClicks = cdState.lbClicks) :=
  ⟨⟨by decide, by decide, by decide, by decide⟩,
   cooldown_reject_consumes_slot cdState "p1" 1500 false alice 2000
     (by decide) (by decide) (by decide) (by decide)⟩

theorem click_reward_formula_witness :
    ((click wstate "p1" 1500 false).1 = .clicked 10 1010 1 1 false) ∧
    ((10 : Int) = (if false then (10 + min (comboVal wstate "p1" 1500 * 2) 50) * 2
                   else 10 + min (comboVal wstate "p1" 1500 * 2) 50) ∧
     (1 : Int) = comboVal wstate "p1" 1500 + 1 ∧
     (0 ≤ comboVal wstate "p1" 1500 → (0 : Int) < 10)) :=
  ⟨by decide,
   click_reward_formula wstate "p1" 1500 false 10 1010 1 1 false (by decide)⟩

theorem rate_limiter_spec_witness :
    (((getA wstate.players "p1").isSome = true ∧
      (getA wstate.rateWindows "p1").getD [] = [] ∧
      0 < wstate.configWindow.getD 1000 ∧
      ([1000, 1600, 2200, 2800] : List Int).Pairwise (· < ·) ∧
      ([1000, 1600, 2200, 2800] : List Int).Pairwise
        (fun a b => a + wstate.configCooldown.getD 500 ≤ b) ∧
      (∀ t ∈ ([1000, 1600, 2200, 2800] : List Int), (0:Int) < t) ∧
      (∀ t ∈ ([1000, 1600, 2200, 2800] : List Int),
        ((countIn (wstate.configWindow.getD 1000) [1000, 1600, 2200, 2800] t : Int) ≤
          wstate.configMaxHits.getD 3))) ∧
     (∀ r ∈ (runClicks "p1" (fun _ => false) wstate [1000, 1600, 2200, 2800]).1,
       r.isAdmitted = true)) ∧
    ((getA rlState.players "p1" = some alice ∧
      (∀ u ∈ (getA rlState.rateWindows "p1").getD [], (0:Int) ≤ u) ∧
      1 ≤ rlState.configMaxHits.getD 3 ∧
      rlState.configMaxHits.getD 3 ≤
        ((List.filter (fun u => !decide (0 ≤ u ∧ u ≤ 1500 - rlState.configWindow.getD 1000))
          ((getA rlState.rateWindows "p1").getD [])).length : Int)) ∧
     (∃ oldest : Int,
       (List.filter (fun u => !decide (0 ≤ u ∧ u ≤ 1500 - rlState.configWindow.getD 1000))
         ((getA rlState.rateWindows "p1").getD [])).min? = some oldest ∧
       click rlState "p1" 1500 false =
         (.rateLimited (max 0 (oldest + rlState.configWindow.getD 1000 - 1500)),
          { rlState with rateWindows := (setA rlState.rateWindows "p1"
             (List.filter (fun u => !decide (0 ≤ u ∧ u ≤ 1500 - rlState.configWindow.getD 1000))
               ((getA rlState.rateWindows "p1").getD []))) }) ∧
       0 < max 0 (oldest + rlState.configWindow.getD 1000 - 1500))) :=
  ⟨⟨⟨by decide, by decide, by decide, by decide, by decide, by decide, by decide⟩,
    rate_limiter_spec.1 wstate "p1" (fun _ => false) [1000, 1600, 2200, 2800]
      (by decide) (by decide)
      (by intro e he _ _; simp [wstate, emptyState, getA] at he)
      (by decide) (by decide) (by decide) (by decide) (by decide)⟩,
   ⟨⟨by decide, by decide, by decide, by decide⟩,
    rate_limiter_spec.2 rlState "p1" 1500 false alice
      (by decide) (by decide) (by decide) (by decide)⟩⟩

theorem lbConsistent_wstate : lbConsistent wstate := by
  constructor <;>
    · intro k q hk
      simp only [wstate, emptyState, getA] at hk ⊢
      split_ifs at hk ⊢ <;>
        · cases hk
          rfl

theorem leaderboard_consistency_witness :
    (lbConsistent wstate ∧ (wstate.players.map Prod.fst).Nodup ∧
      (getA wstate.clickCounts (toString (123 : Int))).getD 0 = 0 ∧
      lbConsistent (player_login wstate "dave" 123).2) ∧
    (lbConsistent (click wstate "p1" 1500 false).2) ∧
    (lbConsistent (shop_buy wstate "p1" "sword" 2 (fun i => i) 99).2) ∧
    (lbConsistent (auction_bid wstate "auction:1" "p1" 80).2) ∧
    (lbConsistent (auction_buy wstate "auction:1" "p1" 77 99).2) ∧
    ((click wstate "p1" 1500 false).1 = .clicked 10 1010 1 1 false ∧
      0 ≤ comboVal wstate "p1" 1500 ∧
      ∃ p, getA wstate.players "p1" = some p ∧ (1010 : Int) = p.gold + 10 ∧
        p.gold < 1010 ∧
        getA (click wstate "p1" 1500 false).2.lbGold "p1" = some 1010) :=
  ⟨⟨lbConsistent_wstate, by decide, by decide,
    leaderboard_consistency.1 wstate "dave" 123 lbConsistent_wstate
      (by decide) (by decide)⟩,
   leaderboard_consistency.2.1 wstate "p1" 1500 false lbConsistent_wstate,
   leaderboard_consistency.2.2.1 wstate "p1" "sword" 2 (fun i => i) 99
     lbConsistent_wstate,
   leaderboard_consistency.2.2.2.1 wstate "auction:1" "p1" 80 lbConsistent_wstate
     (by
       intro a ha hb
       simp [wstate, emptyState, getA] at ha
       rw [← ha]
       decide),
   leaderboard_consistency.2.2.2.2.1 wstate "auction:1" "p1" 77 99
     lbConsistent_wstate (fun _ => by decide)
     (by
       intro a ha
       simp [wstate, emptyState, getA, normAuctionKey] at ha
       rw [← ha]
       decide),
   ⟨by decide, by decide,
    leaderboard_consistency.2.2.2.2.2 wstate "p1" 1500 false 10 1010 1 1 false
      (by decide) (by decide)⟩⟩
